import Mathlib

set_option maxRecDepth 16384

/-!
Verification of the OpenRouter streaming-response consumer
(`src/openrouter_client.rs`, `handle_openrouter_response` and its two call
sites `generate_search_keywords` / `generate_final_answer`).

The embedding models:
  * Rust string/byte primitives used by the consumer (`str::lines`,
    `str::trim`, byte slicing `&line[6..]`, `std::str::from_utf8`);
  * the JSON payload decoding performed by
    `serde_json::from_str::<OpenRouterStreamResponse>` against the struct
    shapes of `src/models.rs`;
  * the chunk/line processing loop of `handle_openrouter_response`,
    with its observable side effects (stdout writes/flushes and stderr
    warnings) recorded in an explicit event log.

Strings are modelled as `List Char`; bytes as `List Nat` (each < 256).
-/

/-- Shorthand: the character list of a string literal. -/
def chars (s : String) : List Char := s.data

/-- Unicode `White_Space` code points, as used by Rust `str::trim`
(`char::is_whitespace`). -/
def rustIsWhitespace (c : Char) : Bool :=
  let n := c.toNat
  decide ((0x09 ≤ n ∧ n ≤ 0x0D) ∨ n = 0x20 ∨ n = 0x85 ∨ n = 0xA0 ∨
    n = 0x1680 ∨ (0x2000 ≤ n ∧ n ≤ 0x200A) ∨ n = 0x2028 ∨ n = 0x2029 ∨
    n = 0x202F ∨ n = 0x205F ∨ n = 0x3000)

/-- Rust `str::trim`: remove leading and trailing whitespace. -/
def rustTrim (l : List Char) : List Char :=
  ((l.dropWhile rustIsWhitespace).reverse.dropWhile rustIsWhitespace).reverse

/-- Split a character list at every newline character; `n` separators give
`n + 1` segments (an empty input gives one empty segment). -/
def splitOnNl : List Char → List (List Char)
  | [] => [[]]
  | c :: rest =>
    if c = '\n' then [] :: splitOnNl rest
    else
      match splitOnNl rest with
      | [] => [[c]]
      | seg :: segs => (c :: seg) :: segs

/-- Remove a single trailing carriage return, if present. -/
def stripTrailingCR (l : List Char) : List Char :=
  match l.getLast? with
  | some c => if c = '\r' then l.dropLast else l
  | none => l

/-- Rust `str::lines` on the segments produced by `splitOnNl`: every
segment except the last was terminated by `\n` (so a trailing `\r` is part
of a `\r\n` ending and is stripped); the final segment is kept only when
non-empty (the final line ending is optional) and keeps any `\r`. -/
def rustLinesAux : List (List Char) → List (List Char)
  | [] => []
  | [last] => if last = [] then [] else [last]
  | seg :: rest => stripTrailingCR seg :: rustLinesAux rest

/-- Rust `str::lines`. -/
def rustLines (s : List Char) : List (List Char) := rustLinesAux (splitOnNl s)

/-- UTF-8 encoded length of one scalar value. -/
def utf8CharLen (c : Char) : Nat :=
  if c.toNat < 0x80 then 1
  else if c.toNat < 0x800 then 2
  else if c.toNat < 0x10000 then 3
  else 4

/-- Rust byte slicing `&s[i..]`: walk the UTF-8 encoding of `s`; `some`
exactly when byte index `i` is in bounds and on a character boundary
(otherwise the Rust expression panics). -/
def rustByteSlice (l : List Char) (i : Nat) : Option (List Char) :=
  match l, i with
  | l, 0 => some l
  | [], _ => none
  | c :: cs, i =>
    if utf8CharLen c ≤ i then rustByteSlice cs (i - utf8CharLen c) else none

/-- A UTF-8 continuation byte. -/
def utf8Cont (b : Nat) : Bool := decide (0x80 ≤ b ∧ b < 0xC0)

/-- Constraint on the first continuation byte of a three-byte sequence
(excludes overlong encodings and surrogate code points). -/
def utf8Cont3 (b b2 : Nat) : Bool :=
  if b = 0xE0 then decide (0xA0 ≤ b2 ∧ b2 < 0xC0)
  else if b = 0xED then decide (0x80 ≤ b2 ∧ b2 < 0xA0)
  else utf8Cont b2

/-- Constraint on the first continuation byte of a four-byte sequence
(excludes overlong encodings and code points above `U+10FFFF`). -/
def utf8Cont4 (b b2 : Nat) : Bool :=
  if b = 0xF0 then decide (0x90 ≤ b2 ∧ b2 < 0xC0)
  else if b = 0xF4 then decide (0x80 ≤ b2 ∧ b2 < 0x90)
  else utf8Cont b2

/-- Model of `std::str::from_utf8` as used on each received chunk: `some` decoded
characters when the byte list is valid UTF-8 on its own, `none` otherwise. -/
def utf8Decode : List Nat → Option (List Char)
  | [] => some []
  | b :: rest =>
    if b < 0x80 then (utf8Decode rest).map (fun cs => Char.ofNat b :: cs)
    else if b < 0xC2 then none
    else if b < 0xE0 then
      match rest with
      | b2 :: r =>
        if utf8Cont b2 then
          (utf8Decode r).map (fun cs => Char.ofNat ((b - 0xC0) * 64 + (b2 - 0x80)) :: cs)
        else none
      | [] => none
    else if b < 0xF0 then
      match rest with
      | b2 :: b3 :: r =>
        if utf8Cont3 b b2 && utf8Cont b3 then
          (utf8Decode r).map (fun cs =>
            Char.ofNat ((b - 0xE0) * 4096 + (b2 - 0x80) * 64 + (b3 - 0x80)) :: cs)
        else none
      | _ => none
    else if b < 0xF5 then
      match rest with
      | b2 :: b3 :: b4 :: r =>
        if utf8Cont4 b b2 && utf8Cont b3 && utf8Cont b4 then
          (utf8Decode r).map (fun cs =>
            Char.ofNat ((b - 0xF0) * 262144 + (b2 - 0x80) * 4096 +
              (b3 - 0x80) * 64 + (b4 - 0x80)) :: cs)
        else none
      | _ => none
    else none

/-- UTF-8 encoding of one scalar value (used to build concrete test chunks). -/
def utf8EncodeChar (c : Char) : List Nat :=
  let n := c.toNat
  if n < 0x80 then [n]
  else if n < 0x800 then [0xC0 + n / 64, 0x80 + n % 64]
  else if n < 0x10000 then [0xE0 + n / 4096, 0x80 + (n / 64) % 64, 0x80 + n % 64]
  else [0xF0 + n / 262144, 0x80 + (n / 4096) % 64, 0x80 + (n / 64) % 64, 0x80 + n % 64]

/-- UTF-8 encoding of a character list. -/
def utf8Encode (l : List Char) : List Nat :=
  l.foldr (fun c acc => utf8EncodeChar c ++ acc) []

/-! ## JSON values and parsing (model of `serde_json::from_str`) -/

/-- A JSON value. A numeric literal records `some n` when it is written as
an integer (no fraction or exponent part) — only such literals can populate
the `u32` fields of the target structs — and `none` otherwise. -/
inductive Json where
  | null
  | bool (b : Bool)
  | num (intVal : Option Int)
  | str (s : List Char)
  | arr (elems : List Json)
  | obj (fields : List (List Char × Json))

/-- JSON structural whitespace (RFC 8259: space, tab, LF, CR). -/
def jsonIsWs (c : Char) : Bool :=
  c = ' ' || c = '\t' || c = '\n' || c = '\r'

/-- Skip JSON structural whitespace. -/
def jsonSkipWs (l : List Char) : List Char := l.dropWhile jsonIsWs

/-- Hexadecimal digit value. -/
def hexVal (c : Char) : Option Nat :=
  if '0' ≤ c ∧ c ≤ '9' then some (c.toNat - '0'.toNat)
  else if 'a' ≤ c ∧ c ≤ 'f' then some (c.toNat - 'a'.toNat + 10)
  else if 'A' ≤ c ∧ c ≤ 'F' then some (c.toNat - 'A'.toNat + 10)
  else none

/-- Opening brace character (code point `0x7B`). -/
def lbrace : Char := Char.ofNat 0x7B

/-- Closing brace character (code point `0x7D`). -/
def rbrace : Char := Char.ofNat 0x7D

/-- Parse the remainder of a JSON string literal (the opening quote already
consumed), handling the escape sequences accepted by `serde_json`,
including `\uXXXX` with surrogate pairs; rejects unescaped control
characters and lone surrogates. Returns the decoded text and the rest. -/
def parseStringRest : List Char → Option (List Char × List Char)
  | [] => none
  | '"' :: rest => some ([], rest)
  | '\\' :: rest =>
    match rest with
    | '"' :: r => (parseStringRest r).map (fun p => ('"' :: p.1, p.2))
    | '\\' :: r => (parseStringRest r).map (fun p => ('\\' :: p.1, p.2))
    | '/' :: r => (parseStringRest r).map (fun p => ('/' :: p.1, p.2))
    | 'b' :: r => (parseStringRest r).map (fun p => (Char.ofNat 0x08 :: p.1, p.2))
    | 'f' :: r => (parseStringRest r).map (fun p => (Char.ofNat 0x0C :: p.1, p.2))
    | 'n' :: r => (parseStringRest r).map (fun p => ('\n' :: p.1, p.2))
    | 'r' :: r => (parseStringRest r).map (fun p => ('\r' :: p.1, p.2))
    | 't' :: r => (parseStringRest r).map (fun p => ('\t' :: p.1, p.2))
    | 'u' :: h1 :: h2 :: h3 :: h4 :: r =>
      match hexVal h1, hexVal h2, hexVal h3, hexVal h4 with
      | some v1, some v2, some v3, some v4 =>
        let n := v1 * 4096 + v2 * 256 + v3 * 16 + v4
        if n < 0xD800 ∨ 0xDFFF < n then
          (parseStringRest r).map (fun p => (Char.ofNat n :: p.1, p.2))
        else if n < 0xDC00 then
          match r with
          | '\\' :: 'u' :: g1 :: g2 :: g3 :: g4 :: r2 =>
            match hexVal g1, hexVal g2, hexVal g3, hexVal g4 with
            | some w1, some w2, some w3, some w4 =>
              let m := w1 * 4096 + w2 * 256 + w3 * 16 + w4
              if 0xDC00 ≤ m ∧ m ≤ 0xDFFF then
                (parseStringRest r2).map (fun p =>
                  (Char.ofNat (0x10000 + (n - 0xD800) * 1024 + (m - 0xDC00)) :: p.1, p.2))
              else none
            | _, _, _, _ => none
          | _ => none
        else none
      | _, _, _, _ => none
    | _ => none
  | c :: rest =>
    if c.toNat < 0x20 then none
    else (parseStringRest rest).map (fun p => (c :: p.1, p.2))

/-- Split off a maximal run of decimal digits. -/
def takeDigits (l : List Char) : List Char × List Char :=
  (l.takeWhile Char.isDigit, l.dropWhile Char.isDigit)

/-- Numeric value of a digit run. -/
def digitsVal (l : List Char) : Nat :=
  l.foldl (fun acc c => acc * 10 + (c.toNat - '0'.toNat)) 0

/-- Parse a JSON number literal (grammar `-? int frac? exp?` with `int`
either `0` or a nonzero-leading digit run). The stored integer value is
`some` only for pure integer literals, matching the fact that literals
with a fraction or exponent deserialize as floating point in `serde_json`
and are then rejected for `u32` struct fields. -/
def parseNumber (l : List Char) : Option (Json × List Char) :=
  let (neg, l1) :=
    match l with
    | '-' :: r => (true, r)
    | _ => (false, l)
  let (intDigits, l2) := takeDigits l1
  match intDigits with
  | [] => none
  | d :: ds =>
    if d = '0' ∧ ds ≠ [] then none
    else
      let (hadFrac, l3) :=
        match l2 with
        | '.' :: r =>
          match takeDigits r with
          | ([], _) => (none, l2)
          | (_ :: _, r2) => (some true, r2)
        | _ => (some false, l2)
      match hadFrac with
      | none => none
      | some frac =>
        let (hadExp, l4) :=
          match l3 with
          | 'e' :: r | 'E' :: r =>
            let r2 := match r with
              | '+' :: r3 => r3
              | '-' :: r3 => r3
              | _ => r
            match takeDigits r2 with
            | ([], _) => (none, l3)
            | (_ :: _, r3) => (some true, r3)
          | _ => (some false, l3)
        match hadExp with
        | none => none
        | some ex =>
          let v : Option Int :=
            if frac ∨ ex then none
            else if neg then some (-(digitsVal intDigits : Int))
            else some (digitsVal intDigits : Int)
          some (Json.num v, l4)

mutual

/-- Parse one JSON value starting at `l` (no leading whitespace). -/
def parseValue (fuel : Nat) (l : List Char) : Option (Json × List Char) :=
  match fuel with
  | 0 => none
  | fuel + 1 =>
    match l with
    | [] => none
    | c :: rest =>
      if c = '"' then (parseStringRest rest).map (fun p => (Json.str p.1, p.2))
      else if c = lbrace then
        let r := jsonSkipWs rest
        match r with
        | c2 :: r2 =>
          if c2 = rbrace then some (Json.obj [], r2)
          else (parseObjFields fuel r).map (fun p => (Json.obj p.1, p.2))
        | [] => none
      else if c = '[' then
        let r := jsonSkipWs rest
        match r with
        | ']' :: r2 => some (Json.arr [], r2)
        | _ => (parseArrElems fuel r).map (fun p => (Json.arr p.1, p.2))
      else
        match l with
        | 'n' :: 'u' :: 'l' :: 'l' :: r => some (Json.null, r)
        | 't' :: 'r' :: 'u' :: 'e' :: r => some (Json.bool true, r)
        | 'f' :: 'a' :: 'l' :: 's' :: 'e' :: r => some (Json.bool false, r)
        | _ =>
          if c = '-' ∨ c.isDigit then parseNumber l
          else none

/-- Parse the members of a JSON object, positioned at the first key
(whitespace skipped); consumes the closing brace. -/
def parseObjFields (fuel : Nat) (l : List Char) :
    Option (List (List Char × Json) × List Char) :=
  match fuel with
  | 0 => none
  | fuel + 1 =>
    match l with
    | '"' :: rest =>
      match parseStringRest rest with
      | none => none
      | some (key, r) =>
        match jsonSkipWs r with
        | ':' :: r2 =>
          match parseValue fuel (jsonSkipWs r2) with
          | none => none
          | some (v, r3) =>
            match jsonSkipWs r3 with
            | ',' :: r4 =>
              (parseObjFields fuel (jsonSkipWs r4)).map
                (fun p => ((key, v) :: p.1, p.2))
            | c :: r4 =>
              if c = rbrace then some ([(key, v)], r4) else none
            | [] => none
        | _ => none
    | _ => none

/-- Parse the elements of a JSON array, positioned at the first element
(whitespace skipped); consumes the closing bracket. -/
def parseArrElems (fuel : Nat) (l : List Char) :
    Option (List Json × List Char) :=
  match fuel with
  | 0 => none
  | fuel + 1 =>
    match parseValue fuel l with
    | none => none
    | some (v, r) =>
      match jsonSkipWs r with
      | ',' :: r2 => (parseArrElems fuel (jsonSkipWs r2)).map (fun p => (v :: p.1, p.2))
      | ']' :: r2 => some ([v], r2)
      | _ => none

end

/-- Top-level `serde_json` document parsing: surrounding whitespace is allowed, the
whole input must be consumed. -/
def parseJson (l : List Char) : Option Json :=
  match parseValue (l.length + 1) (jsonSkipWs l) with
  | some (v, rest) => if jsonSkipWs rest = [] then some v else none
  | none => none

/-! ## Target struct shapes (`src/models.rs`) and serde-style extraction -/

/-- Struct `UsageInfo` of `models.rs`: `prompt_tokens: u32`,
`completion_tokens: Option<u32>`, `total_tokens: u32`. -/
structure UsageInfo where
  prompt_tokens : Nat
  completion_tokens : Option Nat
  total_tokens : Nat
deriving DecidableEq

/-- Struct `OpenRouterError` of `models.rs`: one required field named `_message`. -/
structure OpenRouterError where
  _message : List Char
deriving DecidableEq

/-- Struct `OpenRouterStreamDelta` of `models.rs`: `content: Option<String>`. -/
structure OpenRouterStreamDelta where
  content : Option (List Char)
deriving DecidableEq

/-- Struct `OpenRouterStreamChoice` of `models.rs`: `index: u32`,
`delta: OpenRouterStreamDelta`, `finish_reason: Option<String>`. -/
structure OpenRouterStreamChoice where
  index : Nat
  delta : OpenRouterStreamDelta
  finish_reason : Option (List Char)
deriving DecidableEq

/-- Struct `OpenRouterStreamResponse` of `models.rs`. -/
structure OpenRouterStreamResponse where
  _id : Option (List Char)
  _model : Option (List Char)
  choices : List OpenRouterStreamChoice
  usage : Option UsageInfo
  error : Option OpenRouterError
deriving DecidableEq

/-- First value bound to `key` in a JSON object's member list (serde visits
members in order; duplicate keys, which serde rejects, do not occur in any
input considered here). -/
def jsonLookup (fields : List (List Char × Json)) (key : List Char) : Option Json :=
  match fields with
  | [] => none
  | (k, v) :: rest => if k = key then some v else jsonLookup rest key

/-- serde extraction of a `String`. -/
def jsonAsString : Json → Option (List Char)
  | Json.str s => some s
  | _ => none

/-- serde extraction of a `u32`: only integer literals in range. -/
def jsonAsU32 : Json → Option Nat
  | Json.num (some n) => if 0 ≤ n ∧ n < 4294967296 then some n.toNat else none
  | _ => none

/-- serde treatment of an `Option<T>` struct field: missing or `null`
yields `None`; a present non-null value must convert. -/
def optField (fields : List (List Char × Json)) (key : List Char)
    (conv : Json → Option α) : Option (Option α) :=
  match jsonLookup fields key with
  | none => some none
  | some Json.null => some none
  | some v => (conv v).map some

/-- serde treatment of a required struct field. -/
def reqField (fields : List (List Char × Json)) (key : List Char)
    (conv : Json → Option α) : Option α :=
  (jsonLookup fields key).bind conv

/-- Deserialize `UsageInfo` from a JSON value. -/
def usageFromJson : Json → Option UsageInfo
  | Json.obj fs => do
    let pt ← reqField fs (chars "prompt_tokens") jsonAsU32
    let ct ← optField fs (chars "completion_tokens") jsonAsU32
    let tt ← reqField fs (chars "total_tokens") jsonAsU32
    pure ⟨pt, ct, tt⟩
  | _ => none

/-- Deserialize `OpenRouterError` from a JSON value. -/
def errorFromJson : Json → Option OpenRouterError
  | Json.obj fs => do
    let m ← reqField fs (chars "_message") jsonAsString
    pure ⟨m⟩
  | _ => none

/-- Deserialize `OpenRouterStreamDelta` from a JSON value. -/
def deltaFromJson : Json → Option OpenRouterStreamDelta
  | Json.obj fs => do
    let c ← optField fs (chars "content") jsonAsString
    pure ⟨c⟩
  | _ => none

/-- Deserialize `OpenRouterStreamChoice` from a JSON value. -/
def choiceFromJson : Json → Option OpenRouterStreamChoice
  | Json.obj fs => do
    let i ← reqField fs (chars "index") jsonAsU32
    let d ← reqField fs (chars "delta") deltaFromJson
    let fr ← optField fs (chars "finish_reason") jsonAsString
    pure ⟨i, d, fr⟩
  | _ => none

/-- Deserialize the `Vec<OpenRouterStreamChoice>` field. -/
def choicesFromJson : Json → Option (List OpenRouterStreamChoice)
  | Json.arr xs => xs.mapM choiceFromJson
  | _ => none

/-- Deserialize `OpenRouterStreamResponse` from a JSON value. -/
def respFromJson : Json → Option OpenRouterStreamResponse
  | Json.obj fs => do
    let i ← optField fs (chars "_id") jsonAsString
    let m ← optField fs (chars "_model") jsonAsString
    let cs ← reqField fs (chars "choices") choicesFromJson
    let u ← optField fs (chars "usage") usageFromJson
    let e ← optField fs (chars "error") errorFromJson
    pure ⟨i, m, cs, u, e⟩
  | _ => none

/-- Model of `serde_json::from_str::<OpenRouterStreamResponse>(payload)`: `some`
exactly when the payload is a structurally valid record. (The textual
content of serde's error message is not modelled; the consumer only logs
it.) -/
def OpenRouterStreamResponse.fromStr (payload : List Char) :
    Option OpenRouterStreamResponse :=
  (parseJson payload).bind respFromJson

/-! ## The stream consumer (`handle_openrouter_response`) -/

/-- One observable stdout action: `print!` of text, or an explicit
`stdout().flush()`. `println!()` is a `write` of a single newline. -/
inductive StdoutEvent where
  | write (s : List Char)
  | flush
deriving DecidableEq

/-- One observable stderr action of the consumer loop: the
`eprintln!("Oi, internal server error!")` emitted by the branch taken when
the decoded record has NO embedded error object, or the
`eprintln!("Warning: Failed to parse stream data chunk from …")` emitted
for a non-empty unparseable payload, carrying the phase (`context_msg`)
and the trimmed offending payload. (serde's error text, also interpolated
into the warning, is not modelled.) -/
inductive StderrEvent where
  | oiInternalServerError
  | warnParse (context : List Char) (trimmedPayload : List Char)
deriving DecidableEq

/-- The consumer's mutable state: the two accumulators of the source
(`accumulated_content`, `final_usage_info`) plus the log of observable
stdout/stderr effects, in emission order. -/
structure ConsumeState where
  accumulated_content : List Char
  final_usage_info : Option UsageInfo
  stdoutLog : List StdoutEvent
  stderrLog : List StderrEvent
deriving DecidableEq

/-- Terminal errors of `handle_openrouter_response` (each is an
`anyhow::Error` in the source; the constructor records the data
interpolated into its message). -/
inductive ConsumeError where
  | requestFailed (msg : List Char)
  | chunkReadFailed (context : List Char)
  | encoding (context : List Char)
deriving DecidableEq

/-- Source lines 160–171: the `for choice in stream_resp.choices` body. A
present content delta is appended to `accumulated_content` and, when
`stream_to_stdout` is set, printed and the stdout sink flushed; an absent
delta leaves the state untouched. The `finish_reason` check (source lines
168–170) has an empty body and no effect. -/
def applyChoice (stream_to_stdout : Bool) (s : ConsumeState)
    (choice : OpenRouterStreamChoice) : ConsumeState :=
  match choice.delta.content with
  | some content_delta =>
    let s1 := { s with
      accumulated_content := s.accumulated_content ++ content_delta }
    if stream_to_stdout then
      { s1 with stdoutLog := s1.stdoutLog ++
        [StdoutEvent.write content_delta, StdoutEvent.flush] }
    else s1
  | none => s

/-- Source lines 153–172: handling of one structurally valid decoded
record. When the record carries no embedded error object the code prints
"Oi, internal server error!" and applies nothing (the condition
`!stream_resp.error.is_some()` is as written in the source); otherwise the
record's usage (if any) overwrites `final_usage_info` and each choice is
applied in order. -/
def processRecord (stream_to_stdout : Bool) (st : ConsumeState)
    (resp : OpenRouterStreamResponse) : ConsumeState :=
  if !resp.error.isSome then
    { st with stderrLog := st.stderrLog ++ [StderrEvent.oiInternalServerError] }
  else
    let st1 :=
      match resp.usage with
      | some u => { st with final_usage_info := some u }
      | none => st
    resp.choices.foldl (applyChoice stream_to_stdout) st1

/-- Source lines 146–200: the `for line in chunk_str.lines()` loop. A line
with the `"data: "` prefix has its payload taken by the byte slice
`&line[6..]`; a trimmed payload equal to `"[DONE]"` breaks out of the line
loop (remaining lines of this chunk are discarded); an undecodable payload
warns on stderr when non-empty after trimming and is otherwise ignored;
any other line is ignored. -/
def processLines (context_msg : List Char) (stream_to_stdout : Bool)
    (st : ConsumeState) : List (List Char) → ConsumeState
  | [] => st
  | line :: rest =>
    if (chars "data: ").isPrefixOf line then
      let json_data := (rustByteSlice line 6).getD []
      if rustTrim json_data = chars "[DONE]" then st
      else
        match OpenRouterStreamResponse.fromStr json_data with
        | some stream_resp =>
          processLines context_msg stream_to_stdout
            (processRecord stream_to_stdout st stream_resp) rest
        | none =>
          let trimmed_json_data := rustTrim json_data
          let st1 :=
            if trimmed_json_data ≠ [] then
              { st with stderrLog := st.stderrLog ++
                [StderrEvent.warnParse context_msg trimmed_json_data] }
            else st
          processLines context_msg stream_to_stdout st1 rest
    else
      processLines context_msg stream_to_stdout st rest

/-- Source lines 141–201: the `while let Some(item) = byte_stream.next()`
loop. A failed chunk read (`item` an `Err`) aborts with the
`ChunkReadFailed`-class error; a chunk that is not valid UTF-8 on its own
aborts with the `Encoding`-class error; otherwise the decoded chunk is
line-split and processed. -/
def processChunks (context_msg : List Char) (stream_to_stdout : Bool)
    (st : ConsumeState) :
    List (Except Unit (List Nat)) → Except ConsumeError ConsumeState
  | [] => Except.ok st
  | item :: rest =>
    match item with
    | Except.error _ => Except.error (ConsumeError.chunkReadFailed context_msg)
    | Except.ok chunk =>
      match utf8Decode chunk with
      | none => Except.error (ConsumeError.encoding context_msg)
      | some chunk_str =>
        processChunks context_msg stream_to_stdout
          (processLines context_msg stream_to_stdout st (rustLines chunk_str))
          rest

/-- The placeholder used when reading the failure body itself fails
(source line 127). -/
def unknownBodyText : List Char := chars "Unknown error reading response body"

/-- Function `handle_openrouter_response` (source lines 117–206).

Inputs: `status_is_success` models `response.status().is_success()`;
`body_text` models the best-effort `response.text()` read on failure
(`none` = the read itself failed); `chunks` models the lazy byte stream
(`Except.error` = a transport read error for that pull). The spinner
argument is cosmetic (only `finish_with_message`) and is not modelled.

On a non-success status the function fails immediately with the
`RequestFailed`-class error whose message interpolates `context_msg` and
the body text, touching no chunk. Otherwise it processes the chunks from
an empty accumulator — emitting a bare newline before and after when
`stream_to_stdout` is set — and returns the accumulated content and the
last usage seen. -/
def handle_openrouter_response (status_is_success : Bool)
    (body_text : Option (List Char)) (context_msg : List Char)
    (stream_to_stdout : Bool) (chunks : List (Except Unit (List Nat))) :
    Except ConsumeError ConsumeState :=
  if !status_is_success then
    let error_body := body_text.getD unknownBodyText
    Except.error (ConsumeError.requestFailed
      (context_msg ++ chars ". Response: " ++ error_body))
  else
    let st0 : ConsumeState :=
      { accumulated_content := []
        final_usage_info := none
        stdoutLog := if stream_to_stdout then [StdoutEvent.write ['\n']] else []
        stderrLog := [] }
    match processChunks context_msg stream_to_stdout st0 chunks with
    | Except.error e => Except.error e
    | Except.ok st =>
      Except.ok (if stream_to_stdout then
        { st with stdoutLog := st.stdoutLog ++ [StdoutEvent.write ['\n']] }
      else st)

/-- Argument `context_msg` passed by `generate_search_keywords` (source line 51). -/
def keywordContextMsg : List Char := chars "OpenRouter Keyword Generation"

/-- Argument `stream_to_stdout` passed by `generate_search_keywords` (source line 52):
the keyword phase collects the full response without echoing. -/
def keywordStreamToStdout : Bool := false

/-- Argument `context_msg` passed by `generate_final_answer` (source line 106). -/
def finalAnswerContextMsg : List Char := chars "Final OpenRouter Answer Generation"

/-- Argument `stream_to_stdout` passed by `generate_final_answer` (source line 107):
the literal argument in the source is `false`. -/
def finalAnswerStreamToStdout : Bool := false

/-- A transport-successful chunk that is valid UTF-8 on its own: the
condition under which the consumer's chunk loop never raises a fatal
error. -/
def ValidChunk (it : Except Unit (List Nat)) : Prop :=
  ∃ bs, it = Except.ok bs ∧ (utf8Decode bs).isSome = true

/-- A transport-successful, UTF-8-valid chunk none of whose structurally
valid data-line records carries a content delta (the decoded form of "a
stream with zero `ContentDelta` events"). -/
def NoDeltaChunk (it : Except Unit (List Nat)) : Prop :=
  ∃ bs s, it = Except.ok bs ∧ utf8Decode bs = some s ∧
    ∀ line ∈ rustLines s, ∀ resp,
      OpenRouterStreamResponse.fromStr ((rustByteSlice line 6).getD []) = some resp →
      ∀ ch ∈ resp.choices, ch.delta.content = none

/-! ## Helper lemmas -/

/-- The byte slice `&line[6..]` on a line with the `"data: "` prefix: the
six prefix characters are ASCII, so byte index 6 is in bounds, on a
character boundary, and the slice is the character-level drop. -/
theorem rustByteSlice_eq_drop (line : List Char)
    (h : (chars "data: ").isPrefixOf line = true) :
    rustByteSlice line 6 = some (line.drop 6) := by
  obtain ⟨rest, rfl⟩ : ∃ rest, line = chars "data: " ++ rest := by
    obtain ⟨rest, hr⟩ := List.isPrefixOf_iff_prefix.mp h
    exact ⟨rest, hr.symm⟩
  rw [show chars "data: " = ['d', 'a', 't', 'a', ':', ' '] from rfl]
  simp [rustByteSlice, utf8CharLen]

/-- Evaluation of `splitOnNl` on a newline-free list. -/
theorem splitOnNl_of_not_mem (l : List Char) (h : '\n' ∉ l) :
    splitOnNl l = [l] := by
  induction l with
  | nil => rfl
  | cons c rest ih =>
    have hc : c ≠ '\n' := fun hc => h (hc ▸ List.mem_cons_self c rest)
    have hrest : '\n' ∉ rest := fun hr => h (List.mem_cons_of_mem c hr)
    simp [splitOnNl, hc, ih hrest]

/-- Evaluation of `splitOnNl` on a newline-free list followed by a newline and a tail. -/
theorem splitOnNl_append_nl (l m : List Char) (h : '\n' ∉ l) :
    splitOnNl (l ++ '\n' :: m) = l :: splitOnNl m := by
  induction l with
  | nil => simp [splitOnNl]
  | cons c rest ih =>
    have hc : c ≠ '\n' := fun hc => h (hc ▸ List.mem_cons_self c rest)
    have hrest : '\n' ∉ rest := fun hr => h (List.mem_cons_of_mem c hr)
    rw [List.cons_append]
    simp only [splitOnNl, if_neg hc, ih hrest]

/-- Evaluation of `stripTrailingCR` on a list with no carriage return. -/
theorem stripTrailingCR_of_not_mem (l : List Char) (h : '\r' ∉ l) :
    stripTrailingCR l = l := by
  unfold stripTrailingCR
  cases hl : l.getLast? with
  | none => rfl
  | some c =>
    have hc : c ∈ l := by
      obtain ⟨hne, rfl⟩ :=
        List.mem_getLast?_eq_getLast (show c ∈ l.getLast? by simp [hl])
      exact List.getLast_mem hne
    have : c ≠ '\r' := fun hcr => h (hcr ▸ hc)
    simp [this]

/-- Evaluation of `rustLines` on a non-empty, newline-free chunk is that single line. -/
theorem rustLines_of_not_mem (l : List Char) (h : '\n' ∉ l) (hne : l ≠ []) :
    rustLines l = [l] := by
  unfold rustLines
  rw [splitOnNl_of_not_mem l h]
  simp [rustLinesAux, hne]

/-- Evaluation of `rustLines` on a newline-terminated, newline- and CR-free line. -/
theorem rustLines_append_nl (l : List Char) (hnl : '\n' ∉ l) (hcr : '\r' ∉ l) :
    rustLines (l ++ ['\n']) = [l] := by
  unfold rustLines
  have : l ++ ['\n'] = l ++ '\n' :: ([] : List Char) := by simp
  rw [this, splitOnNl_append_nl l [] hnl]
  simp [splitOnNl, rustLinesAux, stripTrailingCR_of_not_mem l hcr]

/-- Unfolding: a transport-successful, UTF-8-valid chunk is line-split and
processed, then the loop moves to the remaining chunks. -/
theorem processChunks_cons_ok (context_msg : List Char) (flag : Bool)
    (st : ConsumeState) (bs : List Nat) (s : List Char)
    (rest : List (Except Unit (List Nat))) (h : utf8Decode bs = some s) :
    processChunks context_msg flag st (Except.ok bs :: rest)
      = processChunks context_msg flag
          (processLines context_msg flag st (rustLines s)) rest := by
  simp [processChunks, h]

/-- After any prefix of valid chunks, a chunk that is not valid UTF-8 on
its own aborts the loop with the `Encoding`-class error, whatever chunks
would have followed. -/
theorem processChunks_encoding (context_msg : List Char) (flag : Bool)
    (c : List Nat) (rest : List (Except Unit (List Nat)))
    (hc : utf8Decode c = none) :
    ∀ (pre : List (Except Unit (List Nat))) (st : ConsumeState),
      (∀ it ∈ pre, ValidChunk it) →
      processChunks context_msg flag st (pre ++ Except.ok c :: rest)
        = Except.error (ConsumeError.encoding context_msg)
  | [], st, _ => by simp [processChunks, hc]
  | it :: pre, st, hpre => by
    obtain ⟨bs, rfl, hsome⟩ := hpre it (List.mem_cons_self it pre)
    obtain ⟨s, hs⟩ := Option.isSome_iff_exists.mp hsome
    rw [List.cons_append, processChunks_cons_ok _ _ _ _ _ _ hs]
    exact processChunks_encoding context_msg flag c rest hc pre _
      (fun x hx => hpre x (List.mem_cons_of_mem _ hx))

/-- The chunk loop never fails on a sequence of valid chunks: whatever the
chunks' textual content — malformed lines, `[DONE]` sentinels anywhere or
nowhere — exhaustion yields a success. -/
theorem processChunks_ok_of_valid (context_msg : List Char) (flag : Bool) :
    ∀ (chunks : List (Except Unit (List Nat))) (st : ConsumeState),
      (∀ it ∈ chunks, ValidChunk it) →
      ∃ st', processChunks context_msg flag st chunks = Except.ok st'
  | [], st, _ => ⟨st, rfl⟩
  | it :: chunks, st, hv => by
    obtain ⟨bs, rfl, hsome⟩ := hv it (List.mem_cons_self it chunks)
    obtain ⟨s, hs⟩ := Option.isSome_iff_exists.mp hsome
    rw [processChunks_cons_ok _ _ _ _ _ _ hs]
    exact processChunks_ok_of_valid context_msg flag chunks _
      (fun x hx => hv x (List.mem_cons_of_mem _ hx))

/-- A choice without a content delta leaves the state untouched. -/
theorem applyChoice_of_no_delta (flag : Bool) (s : ConsumeState)
    (choice : OpenRouterStreamChoice) (h : choice.delta.content = none) :
    applyChoice flag s choice = s := by
  simp [applyChoice, h]

/-- Folding `applyChoice` over choices none of which carries a content
delta leaves the state untouched. -/
theorem foldl_applyChoice_of_no_delta (flag : Bool) :
    ∀ (l : List OpenRouterStreamChoice) (st : ConsumeState),
      (∀ ch ∈ l, ch.delta.content = none) →
      l.foldl (applyChoice flag) st = st
  | [], _, _ => rfl
  | ch :: l, st, h => by
    rw [List.foldl_cons,
      applyChoice_of_no_delta flag st ch (h ch (List.mem_cons_self ch l))]
    exact foldl_applyChoice_of_no_delta flag l st
      (fun x hx => h x (List.mem_cons_of_mem ch hx))

/-- A record with no content delta in any choice never extends
`accumulated_content` (whether or not it carries usage or an embedded
error object). -/
theorem processRecord_acc_of_no_delta (flag : Bool) (st : ConsumeState)
    (resp : OpenRouterStreamResponse)
    (h : ∀ ch ∈ resp.choices, ch.delta.content = none) :
    (processRecord flag st resp).accumulated_content = st.accumulated_content := by
  unfold processRecord
  by_cases he : resp.error.isSome
  · simp only [he, Bool.not_true, Bool.false_eq_true, if_false]
    cases hu : resp.usage with
    | none => rw [foldl_applyChoice_of_no_delta flag _ _ h]
    | some u => rw [foldl_applyChoice_of_no_delta flag _ _ h]
  · simp [he]

/-- Processing lines none of whose structurally valid payloads carries a
content delta leaves `accumulated_content` untouched. -/
theorem processLines_acc_of_no_delta (context_msg : List Char) (flag : Bool) :
    ∀ (lines : List (List Char)) (st : ConsumeState),
      (∀ line ∈ lines, ∀ resp,
        OpenRouterStreamResponse.fromStr ((rustByteSlice line 6).getD [])
          = some resp →
        ∀ ch ∈ resp.choices, ch.delta.content = none) →
      (processLines context_msg flag st lines).accumulated_content
        = st.accumulated_content
  | [], st, _ => rfl
  | line :: rest, st, h => by
    have hrest := fun x hx => h x (List.mem_cons_of_mem line hx)
    unfold processLines
    by_cases hp : (chars "data: ").isPrefixOf line
    · simp only [hp, if_true]
      by_cases hdone :
          rustTrim ((rustByteSlice line 6).getD []) = chars "[DONE]"
      · simp only [hdone, if_true]
      · simp only [hdone, if_false]
        cases hd : OpenRouterStreamResponse.fromStr
            ((rustByteSlice line 6).getD []) with
        | some resp =>
          rw [processLines_acc_of_no_delta context_msg flag rest _ hrest,
            processRecord_acc_of_no_delta flag st resp
              (h line (List.mem_cons_self line rest) resp hd)]
        | none =>
          refine Eq.trans
            (processLines_acc_of_no_delta context_msg flag rest _ hrest) ?_
          by_cases ht : rustTrim ((rustByteSlice line 6).getD []) = []
          · simp [ht]
          · simp [ht]
    · simp only [hp, if_false]
      exact processLines_acc_of_no_delta context_msg flag rest _ hrest

/-- The chunk loop over `NoDeltaChunk`s succeeds without ever extending
`accumulated_content`. -/
theorem processChunks_acc_of_no_delta (context_msg : List Char) (flag : Bool) :
    ∀ (chunks : List (Except Unit (List Nat))) (st : ConsumeState),
      (∀ it ∈ chunks, NoDeltaChunk it) →
      ∃ st', processChunks context_msg flag st chunks = Except.ok st' ∧
        st'.accumulated_content = st.accumulated_content
  | [], st, _ => ⟨st, rfl, rfl⟩
  | it :: chunks, st, h => by
    obtain ⟨bs, s, rfl, hs, hlines⟩ := h it (List.mem_cons_self it chunks)
    rw [processChunks_cons_ok _ _ _ _ _ _ hs]
    obtain ⟨st', hok, hacc⟩ :=
      processChunks_acc_of_no_delta context_msg flag chunks
        (processLines context_msg flag st (rustLines s))
        (fun x hx => h x (List.mem_cons_of_mem _ hx))
    exact ⟨st', hok, by
      rw [hacc, processLines_acc_of_no_delta context_msg flag _ _ hlines]⟩

/-- Processing a single line whose payload does not decode as a
structurally valid record (when the line is a data line at all) can only
log to stderr: `accumulated_content` and `final_usage_info` are untouched. -/
theorem processLines_single_no_decode (context_msg : List Char) (flag : Bool)
    (st : ConsumeState) (line : List Char)
    (h : (chars "data: ").isPrefixOf line = true →
      OpenRouterStreamResponse.fromStr (line.drop 6) = none) :
    (processLines context_msg flag st [line]).accumulated_content
        = st.accumulated_content ∧
      (processLines context_msg flag st [line]).final_usage_info
        = st.final_usage_info := by
  unfold processLines
  by_cases hp : (chars "data: ").isPrefixOf line
  · rw [rustByteSlice_eq_drop line hp]
    simp only [hp, if_true, Option.getD_some]
    by_cases hdone : rustTrim (line.drop 6) = chars "[DONE]"
    · simp [hdone]
    · rw [if_neg hdone, h hp]
      by_cases ht : rustTrim (line.drop 6) = []
      · simp [ht, processLines]
      · simp [ht, processLines]
  · simp [hp, processLines]

/-! ## Claim theorems -/

/-- C3: for every response whose status is non-2xx, consumption fails
immediately with a `RequestFailed`-class error whose message contains the
full response body text (or the placeholder when reading the body itself
failed), no chunk of the body stream is consumed (the result is identical
for every chunk sequence), and no content is accumulated before the
failure is returned. -/
theorem c3_non2xx_fails_with_body (body_text : Option (List Char))
    (context_msg : List Char) (stream_to_stdout : Bool)
    (chunks : List (Except Unit (List Nat))) :
    handle_openrouter_response false body_text context_msg stream_to_stdout chunks
      = Except.error (ConsumeError.requestFailed
          (context_msg ++ chars ". Response: " ++ body_text.getD unknownBodyText)) ∧
    (∃ pre suf,
      context_msg ++ chars ". Response: " ++ body_text.getD unknownBodyText
        = pre ++ body_text.getD unknownBodyText ++ suf) ∧
    (∀ chunks',
      handle_openrouter_response false body_text context_msg stream_to_stdout chunks
        = handle_openrouter_response false body_text context_msg stream_to_stdout
            chunks') := by
  refine ⟨rfl, ⟨context_msg ++ chars ". Response: ", [], by simp⟩, fun _ => rfl⟩

/-- C4: a chunk that is not valid UTF-8 on its own is fatal: after any
prefix of valid chunks, consumption stops at the bad chunk and returns the
`Encoding`-class error, whatever chunks follow — the bad chunk is neither
skipped nor byte-reassembled with its successors. -/
theorem c4_invalid_utf8_chunk_fatal (context_msg : List Char)
    (stream_to_stdout : Bool) (body_text : Option (List Char))
    (pre : List (Except Unit (List Nat))) (c : List Nat)
    (rest : List (Except Unit (List Nat)))
    (hpre : ∀ it ∈ pre, ValidChunk it) (hc : utf8Decode c = none) :
    handle_openrouter_response true body_text context_msg stream_to_stdout
        (pre ++ Except.ok c :: rest)
      = Except.error (ConsumeError.encoding context_msg) := by
  have h := processChunks_encoding context_msg stream_to_stdout c rest hc pre
    { accumulated_content := [], final_usage_info := none,
      stdoutLog := if stream_to_stdout then [StdoutEvent.write ['\n']] else [],
      stderrLog := [] } hpre
  simp [handle_openrouter_response, h]

/-- C4 witness: the chunk `[0xC3]` is invalid UTF-8 on its own, so
consumption fails with the `Encoding` error even though the following
chunk `[0xA9]` would complete it to a valid encoding of `é` — no
cross-chunk reassembly is attempted. -/
theorem c4_invalid_utf8_chunk_fatal_witness :
    handle_openrouter_response true none (chars "OpenRouter Keyword Generation")
        false
        ([Except.ok (utf8Encode (chars "data: "))] ++ Except.ok [0xC3] ::
          [Except.ok [0xA9]])
      = Except.error
          (ConsumeError.encoding (chars "OpenRouter Keyword Generation")) :=
  c4_invalid_utf8_chunk_fatal _ _ _ _ _ _
    (by
      intro it hit
      simp only [List.mem_singleton] at hit
      exact ⟨_, hit, by decide⟩)
    (by decide)

/-- C10: the byte slice `&line[6..]` is evaluated only under the guard
`line.starts_with("data: ")`; since that prefix is six one-byte
characters, byte index 6 is always in bounds and on a UTF-8 character
boundary, so the slice never panics and equals the character-level drop of
the prefix. -/
theorem c10_slice_guarded_safe (line : List Char)
    (h : (chars "data: ").isPrefixOf line = true) :
    (rustByteSlice line 6).isSome = true ∧
      rustByteSlice line 6 = some (line.drop 6) := by
  have he := rustByteSlice_eq_drop line h
  exact ⟨by rw [he]; rfl, he⟩

/-- C10 witness: a data line whose payload holds multi-byte characters. -/
theorem c10_slice_guarded_safe_witness :
    (rustByteSlice (chars "data: é€𝄞") 6).isSome = true ∧
      rustByteSlice (chars "data: é€𝄞") 6 = some ((chars "data: é€𝄞").drop 6) :=
  c10_slice_guarded_safe _ (by decide)

/-- C7 counterexample: a 2xx stream whose single structurally valid event
has zero content deltas (`choices` is empty) but carries a usage object
(and an embedded error object, which the code's inverted branch requires
before it captures anything) yields `accumulated_text = ""` as claimed,
but `usage = some ⟨3, none, 7⟩`, not absent — refuting the claim that a
stream with zero content-delta events yields usage absent. -/
theorem c7_counterexample :
    (OpenRouterStreamResponse.fromStr
        (chars "\x7b\"choices\":[],\"usage\":\x7b\"prompt_tokens\":3,\"total_tokens\":7\x7d,\"error\":\x7b\"_message\":\"upstream\"\x7d\x7d")).map
        (fun r => r.choices) = some [] ∧
    handle_openrouter_response true none (chars "OpenRouter Keyword Generation")
        false
        [Except.ok (utf8Encode (chars "data: \x7b\"choices\":[],\"usage\":\x7b\"prompt_tokens\":3,\"total_tokens\":7\x7d,\"error\":\x7b\"_message\":\"upstream\"\x7d\x7d\n"))]
      = Except.ok
          { accumulated_content := []
            final_usage_info := some
              { prompt_tokens := 3, completion_tokens := none, total_tokens := 7 }
            stdoutLog := []
            stderrLog := [] } := by
  exact ⟨rfl, rfl⟩

/-- C7 (amended): whenever the byte sequence is exhausted without a
transport-fatal error, consumption returns success regardless of whether a
`[DONE]` sentinel was observed; an empty byte sequence yields
`accumulated_text = ""` and usage absent; and a stream with zero
content-delta events yields `accumulated_text = ""` (its usage reflects
any usage-carrying events rather than being absent). -/
theorem c7_exhaustion_success (context_msg : List Char) (flag : Bool)
    (body_text : Option (List Char)) :
    (∀ chunks, (∀ it ∈ chunks, ValidChunk it) →
      ∃ st, handle_openrouter_response true body_text context_msg flag chunks
        = Except.ok st) ∧
    (∃ st, handle_openrouter_response true body_text context_msg flag []
        = Except.ok st ∧ st.accumulated_content = [] ∧
        st.final_usage_info = none) ∧
    (∀ chunks, (∀ it ∈ chunks, NoDeltaChunk it) →
      ∃ st, handle_openrouter_response true body_text context_msg flag chunks
        = Except.ok st ∧ st.accumulated_content = []) := by
  refine ⟨?_, ?_, ?_⟩
  · intro chunks hv
    obtain ⟨st', hok⟩ := processChunks_ok_of_valid context_msg flag chunks
      { accumulated_content := [], final_usage_info := none,
        stdoutLog := if flag then [StdoutEvent.write ['\n']] else [],
        stderrLog := [] } hv
    exact ⟨if flag then
        { st' with stdoutLog := st'.stdoutLog ++ [StdoutEvent.write ['\n']] }
      else st', by simp [handle_openrouter_response, hok]⟩
  · cases flag <;> exact ⟨_, rfl, rfl, rfl⟩
  · intro chunks hnd
    obtain ⟨st', hok, hacc⟩ := processChunks_acc_of_no_delta context_msg flag
      chunks
      { accumulated_content := [], final_usage_info := none,
        stdoutLog := if flag then [StdoutEvent.write ['\n']] else [],
        stderrLog := [] } hnd
    refine ⟨if flag then
        { st' with stdoutLog := st'.stdoutLog ++ [StdoutEvent.write ['\n']] }
      else st', by simp [handle_openrouter_response, hok], ?_⟩
    cases flag <;> simpa using hacc

/-- C7 witness: part one at a stream holding a `[DONE]` sentinel and a
non-data line, part two at the empty byte sequence, part three at a
stream whose single line is not a data line (hence zero content-delta
events). -/
theorem c7_exhaustion_success_witness :
    (∃ st, handle_openrouter_response true none
        (chars "OpenRouter Keyword Generation") false
        [Except.ok (utf8Encode (chars "data: [DONE]\nnot a data line\n"))]
      = Except.ok st) ∧
    (∃ st, handle_openrouter_response true none
        (chars "OpenRouter Keyword Generation") false []
      = Except.ok st ∧ st.accumulated_content = [] ∧
      st.final_usage_info = none) ∧
    (∃ st, handle_openrouter_response true none
        (chars "OpenRouter Keyword Generation") false
        [Except.ok (utf8Encode (chars "x\n"))]
      = Except.ok st ∧ st.accumulated_content = []) := by
  have h := c7_exhaustion_success (chars "OpenRouter Keyword Generation") false
    none
  refine ⟨h.1 _ ?_, h.2.1, h.2.2 _ ?_⟩
  · intro it hit
    simp only [List.mem_singleton] at hit
    exact ⟨_, hit, by decide⟩
  · intro it hit
    simp only [List.mem_singleton] at hit
    refine ⟨_, chars "x\n", hit, by decide, ?_⟩
    intro line hline resp hresp ch hch
    have h1 : rustLines (chars "x\n") = [['x']] := by decide
    rw [h1, List.mem_singleton] at hline
    subst hline
    have h2 : OpenRouterStreamResponse.fromStr
        ((rustByteSlice ['x'] 6).getD []) = none := by decide
    rw [h2] at hresp
    exact absurd hresp (by simp)

/-- C8 counterexample: a logical `"data: "` event line whose payload ends
in a space, split at the chunk boundary just before that space. The first
fragment is itself a complete well-formed data line (not a malformed
fragment), so the split line's event IS applied: `accumulated_text`
becomes `"hi"` — refuting the claim that a split data line's event is
never applied. (The record carries an embedded error object because the
code's inverted branch applies only such records.) -/
theorem c8_counterexample :
    (chars "data: ").isPrefixOf
        (chars "data: \x7b\"choices\":[\x7b\"index\":0,\"delta\":\x7b\"content\":\"hi\"\x7d,\"finish_reason\":null\x7d],\"error\":\x7b\"_message\":\"x\"\x7d\x7d" ++ chars " ")
      = true ∧
    (OpenRouterStreamResponse.fromStr
        ((chars "data: \x7b\"choices\":[\x7b\"index\":0,\"delta\":\x7b\"content\":\"hi\"\x7d,\"finish_reason\":null\x7d],\"error\":\x7b\"_message\":\"x\"\x7d\x7d" ++ chars " ").drop 6)).isSome
      = true ∧
    handle_openrouter_response true none
        (chars "Final OpenRouter Answer Generation") false
        [Except.ok (utf8Encode
          (chars "data: \x7b\"choices\":[\x7b\"index\":0,\"delta\":\x7b\"content\":\"hi\"\x7d,\"finish_reason\":null\x7d],\"error\":\x7b\"_message\":\"x\"\x7d\x7d")),
         Except.ok (utf8Encode (chars " \n"))]
      = Except.ok
          { accumulated_content := chars "hi"
            final_usage_info := none
            stdoutLog := []
            stderrLog := [] } := by
  exact ⟨rfl, rfl, rfl⟩

/-- C8 (amended): for every logical `"data: "` event line split across a
chunk boundary, the two fragments are line-split and processed
independently with no cross-chunk reassembly; provided neither fragment on
its own forms a complete structurally valid `"data: "` event, the split
line's event is never applied to `accumulated_content` or
`final_usage_info`. -/
theorem c8_split_line_never_applied (context_msg : List Char) (flag : Bool)
    (st : ConsumeState) (p L1 L2 : List Char) (bA bB : List Nat)
    (hline : chars "data: " ++ p = L1 ++ L2)
    (hnl : '\n' ∉ chars "data: " ++ p) (hcr : '\r' ∉ chars "data: " ++ p)
    (hne1 : L1 ≠ []) (hA : utf8Decode bA = some L1)
    (hB : utf8Decode bB = some (L2 ++ ['\n']))
    (h1 : (chars "data: ").isPrefixOf L1 = true →
      OpenRouterStreamResponse.fromStr (L1.drop 6) = none)
    (h2 : (chars "data: ").isPrefixOf L2 = true →
      OpenRouterStreamResponse.fromStr (L2.drop 6) = none) :
    ∃ st', processChunks context_msg flag st [Except.ok bA, Except.ok bB]
        = Except.ok st' ∧
      st'.accumulated_content = st.accumulated_content ∧
      st'.final_usage_info = st.final_usage_info := by
  have hnl1 : '\n' ∉ L1 := fun hm =>
    hnl (by rw [hline]; exact List.mem_append_left _ hm)
  have hnl2 : '\n' ∉ L2 := fun hm =>
    hnl (by rw [hline]; exact List.mem_append_right _ hm)
  have hcr2 : '\r' ∉ L2 := fun hm =>
    hcr (by rw [hline]; exact List.mem_append_right _ hm)
  rw [processChunks_cons_ok _ _ _ _ _ _ hA,
    processChunks_cons_ok _ _ _ _ _ _ hB,
    rustLines_of_not_mem L1 hnl1 hne1, rustLines_append_nl L2 hnl2 hcr2]
  obtain ⟨ha1, hu1⟩ := processLines_single_no_decode context_msg flag st L1 h1
  obtain ⟨ha2, hu2⟩ := processLines_single_no_decode context_msg flag
    (processLines context_msg flag st [L1]) L2 h2
  exact ⟨_, rfl, by rw [ha2, ha1], by rw [hu2, hu1]⟩

/-- C8 witness: the spec's own example split `"data: \x7b\"cho"` /
`"ices\":[]\x7d\n"` applies nothing. -/
theorem c8_split_line_never_applied_witness :
    ∃ st', processChunks (chars "Final OpenRouter Answer Generation") false
        { accumulated_content := [], final_usage_info := none,
          stdoutLog := [], stderrLog := [] }
        [Except.ok (utf8Encode (chars "data: \x7b\"cho")),
         Except.ok (utf8Encode (chars "ices\":[]\x7d\n"))]
        = Except.ok st' ∧
      st'.accumulated_content = [] ∧ st'.final_usage_info = none :=
  c8_split_line_never_applied (chars "Final OpenRouter Answer Generation")
    false _ (chars "\x7b\"choices\":[]\x7d") (chars "data: \x7b\"cho")
    (chars "ices\":[]\x7d") _ _ (by decide) (by decide) (by decide)
    (by decide) (by decide) (by decide) (by decide) (by decide)

/-- C1 (code-bug evidence): a well-formed stream of one content-only event
(`delta.content = "hi"`, no usage, no embedded error) followed by the
`[DONE]` sentinel. The decoded record is structurally valid and carries
exactly the delta `"hi"`, yet consumption returns
`accumulated_content = ""` with the "Oi, internal server error!" warning:
the source's inverted condition `!stream_resp.error.is_some()` skips the
usage/choices processing precisely for records with no embedded error
object, so content deltas of ordinary events are never appended. -/
theorem c1_bug_content_only_event_not_accumulated :
    (OpenRouterStreamResponse.fromStr
        (chars "\x7b\"choices\":[\x7b\"index\":0,\"delta\":\x7b\"content\":\"hi\"\x7d,\"finish_reason\":null\x7d]\x7d")).map
        (fun r => (r.choices.map (fun ch => ch.delta.content), r.usage, r.error))
      = some ([some (chars "hi")], none, none) ∧
    handle_openrouter_response true none (chars "OpenRouter Keyword Generation")
        false
        [Except.ok (utf8Encode
          (chars "data: \x7b\"choices\":[\x7b\"index\":0,\"delta\":\x7b\"content\":\"hi\"\x7d,\"finish_reason\":null\x7d]\x7d\n")),
         Except.ok (utf8Encode (chars "data: [DONE]\n"))]
      = Except.ok
          { accumulated_content := []
            final_usage_info := none
            stdoutLog := []
            stderrLog := [StderrEvent.oiInternalServerError] } := by
  exact ⟨rfl, rfl⟩

/-- C2 (code-bug evidence): a stream with exactly one structurally valid
usage-carrying event (and no embedded error object). The decoded record
carries `usage = ⟨5, none, 9⟩`, yet consumption returns `usage = none`:
the inverted error branch skips the usage capture for records with no
embedded error object, so a provider's ordinary final usage event is never
recorded. -/
theorem c2_bug_usage_event_not_captured :
    (OpenRouterStreamResponse.fromStr
        (chars "\x7b\"choices\":[],\"usage\":\x7b\"prompt_tokens\":5,\"total_tokens\":9\x7d\x7d")).map
        (fun r => r.usage)
      = some (some
          { prompt_tokens := 5, completion_tokens := none, total_tokens := 9 }) ∧
    handle_openrouter_response true none (chars "OpenRouter Keyword Generation")
        false
        [Except.ok (utf8Encode
          (chars "data: \x7b\"choices\":[],\"usage\":\x7b\"prompt_tokens\":5,\"total_tokens\":9\x7d\x7d\n"))]
      = Except.ok
          { accumulated_content := []
            final_usage_info := none
            stdoutLog := []
            stderrLog := [StderrEvent.oiInternalServerError] } := by
  exact ⟨rfl, rfl⟩

/-- C5 (code-bug evidence): an unparseable data line is non-fatal exactly
as claimed — `"data: not-json"` emits one warning naming the phase and the
trimmed payload and processing continues with the next line, and a payload
that is empty after trimming emits nothing — but the well-formed
content-only event following the unparseable line is decoded (the loop
reaches it and emits the inverted-branch warning) and still NOT applied to
the result: `accumulated_content` stays empty instead of `"hi"`. -/
theorem c5_bug_following_event_not_applied :
    handle_openrouter_response true none (chars "OpenRouter Keyword Generation")
        false
        [Except.ok (utf8Encode
          (chars "data: not-json\ndata: \x7b\"choices\":[\x7b\"index\":0,\"delta\":\x7b\"content\":\"hi\"\x7d,\"finish_reason\":null\x7d]\x7d\n"))]
      = Except.ok
          { accumulated_content := []
            final_usage_info := none
            stdoutLog := []
            stderrLog := [StderrEvent.warnParse
                (chars "OpenRouter Keyword Generation") (chars "not-json"),
              StderrEvent.oiInternalServerError] } ∧
    handle_openrouter_response true none (chars "OpenRouter Keyword Generation")
        false [Except.ok (utf8Encode (chars "data:  \n"))]
      = Except.ok
          { accumulated_content := []
            final_usage_info := none
            stdoutLog := []
            stderrLog := [] } ∧
    (OpenRouterStreamResponse.fromStr
        (chars "\x7b\"choices\":[\x7b\"index\":0,\"delta\":\x7b\"content\":\"hi\"\x7d,\"finish_reason\":null\x7d]\x7d")).map
        (fun r => r.choices.map (fun ch => ch.delta.content))
      = some [some (chars "hi")] := by
  exact ⟨rfl, rfl, rfl⟩

/-- C6 (code-bug evidence): a chunk whose first line is `data: [DONE]`
stops that chunk's remaining lines (the malformed `data: junkafter` line
after it produces NO warning), and consumption of the next chunk continues
(its record is decoded: the inverted-branch warning is emitted for it) —
but the later chunk's content-only event is NOT appended:
`accumulated_content` stays empty instead of `"B"`, because of the
inverted error branch. -/
theorem c6_bug_later_chunk_content_not_appended :
    handle_openrouter_response true none (chars "OpenRouter Keyword Generation")
        false
        [Except.ok (utf8Encode (chars "data: [DONE]\ndata: junkafter\n")),
         Except.ok (utf8Encode
          (chars "data: \x7b\"choices\":[\x7b\"index\":0,\"delta\":\x7b\"content\":\"B\"\x7d,\"finish_reason\":null\x7d]\x7d\n"))]
      = Except.ok
          { accumulated_content := []
            final_usage_info := none
            stdoutLog := []
            stderrLog := [StderrEvent.oiInternalServerError] } ∧
    (OpenRouterStreamResponse.fromStr
        (chars "\x7b\"choices\":[\x7b\"index\":0,\"delta\":\x7b\"content\":\"B\"\x7d,\"finish_reason\":null\x7d]\x7d")).map
        (fun r => r.choices.map (fun ch => ch.delta.content))
      = some [some (chars "B")] := by
  exact ⟨rfl, rfl⟩

/-- C9 (code-bug evidence): both call sites pass `stream_to_stdout = false`
(source lines 52 and 107), so the final-answer phase performs NO live
echo: consuming an applied content delta `"hi"` leaves the stdout log
empty. Had the flag been `true` (as the source's comments describe), the
delta would be written immediately and the sink flushed before the next
line, as the fourth conjunct shows. (The event record carries an embedded
error object so that the inverted branch applies its delta at all.) -/
theorem c9_bug_no_live_echo_in_final_phase :
    finalAnswerStreamToStdout = false ∧ keywordStreamToStdout = false ∧
    handle_openrouter_response true none finalAnswerContextMsg
        finalAnswerStreamToStdout
        [Except.ok (utf8Encode
          (chars "data: \x7b\"choices\":[\x7b\"index\":0,\"delta\":\x7b\"content\":\"hi\"\x7d,\"finish_reason\":null\x7d],\"error\":\x7b\"_message\":\"x\"\x7d\x7d\n"))]
      = Except.ok
          { accumulated_content := chars "hi"
            final_usage_info := none
            stdoutLog := []
            stderrLog := [] } ∧
    handle_openrouter_response true none finalAnswerContextMsg true
        [Except.ok (utf8Encode
          (chars "data: \x7b\"choices\":[\x7b\"index\":0,\"delta\":\x7b\"content\":\"hi\"\x7d,\"finish_reason\":null\x7d],\"error\":\x7b\"_message\":\"x\"\x7d\x7d\n"))]
      = Except.ok
          { accumulated_content := chars "hi"
            final_usage_info := none
            stdoutLog := [StdoutEvent.write ['\n'], StdoutEvent.write (chars "hi"),
              StdoutEvent.flush, StdoutEvent.write ['\n']]
            stderrLog := [] } := by
  exact ⟨rfl, rfl, rfl, rfl⟩
